import Mathlib

/-!
Verification of the `voice-stt` speech-to-text engine wrapper
(`stt_engine/stt_engine.py` and `src/fastapi/api_server.py`) against its
natural-language specification.

The Python code is shallowly embedded:

* `str.strip()` becomes `pyStrip` (ASCII whitespace, the set Python strips
  on the inputs occurring here);
* the `WhisperModelName` enum becomes an inductive with its `value` strings
  and the definition-order member list;
* a `WhisperSTT` object becomes a record carrying the constructor-set fields
  plus the lazily created model handle (`_model`, a `Nat` handle id) and a
  ghost counter of `WhisperModel` constructions;
* `transcribe` becomes a pure function over an environment `Env` supplying
  the file system (the set of existing paths), the behaviour of
  `model.transcribe`, and the measured wall-clock duration; its output
  records the result (or raised error), the updated engine, a ghost trace
  of inference invocations and a ghost count of `_ensure_model` calls;
* `transcribe_pcm16` additionally threads the file-system state and records
  the temporary WAV files it creates;
* the concurrent execution of `_ensure_model` by N threads is a small-step
  transition system, one step per read/write/lock operation of the Python
  method.
-/

/-- Python `str.isspace`/`strip` whitespace characters (restricted to the
ASCII whitespace set: space, tab, newline, carriage return, vertical tab,
form feed). -/
def pyIsSpace (c : Char) : Bool :=
  c == ' ' || c == '\t' || c == '\n' || c == '\r' ||
    c == Char.ofNat 11 || c == Char.ofNat 12

/-- Python `str.strip()`: drop whitespace from both ends. -/
def pyStrip (s : String) : String :=
  ⟨((s.data.dropWhile pyIsSpace).reverse.dropWhile pyIsSpace).reverse⟩

/-- The `WhisperModelName` enum of `stt_engine.py` (members in definition
order). -/
inductive WhisperModelName
  | tiny
  | base
  | small
  | medium
  | large_v3
deriving DecidableEq, Repr

/-- The `.value` string of each enum member. -/
def WhisperModelName.value : WhisperModelName → String
  | .tiny => "tiny"
  | .base => "base"
  | .small => "small"
  | .medium => "medium"
  | .large_v3 => "large-v3"

/-- Iteration order of the enum: Python enumerates members in definition
order. -/
def WhisperModelName.members : List WhisperModelName :=
  [.tiny, .base, .small, .medium, .large_v3]

/-- Lookup-by-value, as Python's `WhisperModelName(s)` enum call: returns
the member whose `.value` equals `s`, or raises `ValueError` (modelled as
`.error s`) when no member matches. -/
def WhisperModelName.ofString (s : String) : Except String WhisperModelName :=
  match WhisperModelName.members.find? (fun m => m.value == s) with
  | some m => .ok m
  | none => .error s

/-- The frozen dataclass `TranscriptionResult`.  Float durations and
probabilities are modelled as rationals. -/
structure TranscriptionResult where
  text : String
  detected_language : Option String
  language_probability : Option ℚ
  seconds : ℚ
deriving DecidableEq, Repr

/-- `TranscriptionResult(text="", detected_language=None,
language_probability=None, seconds=0.0)` — the sentinel returned for
missing/empty input. -/
def zeroResult : TranscriptionResult :=
  { text := "", detected_language := none, language_probability := none, seconds := 0 }

/-- A `WhisperSTT` object: the constructor-set fields plus `_model`
(`None` until first use; a loaded handle is identified by a `Nat`) and a
ghost count of `WhisperModel(...)` constructions performed by this
engine. -/
structure WhisperSTT where
  model_name : WhisperModelName
  device : String
  compute_type : String
  model : Option Nat
  initCount : Nat
deriving DecidableEq, Repr

/-- `WhisperSTT._default_device_config`: `device or "cuda"`,
`compute_type or "float16"` (Python `or` treats `None` and `""` as
falsy). -/
def WhisperSTT.default_device_config (device compute_type : Option String) :
    String × String :=
  (match device with
   | none => "cuda"
   | some d => if d = "" then "cuda" else d,
   match compute_type with
   | none => "float16"
   | some ct => if ct = "" then "float16" else ct)

/-- `WhisperSTT.__init__`: stores the model name and device configuration;
`_model` starts as `None` (the Uninitialized state). -/
def WhisperSTT.init (model_name : WhisperModelName)
    (device compute_type : Option String) : WhisperSTT :=
  let dc := WhisperSTT.default_device_config device compute_type
  { model_name := model_name, device := dc.1, compute_type := dc.2,
    model := none, initCount := 0 }

/-- Sequential projection of `WhisperSTT._ensure_model`: return the existing
handle, or construct the model once (the double-checked lock collapses to
this in a single-caller run; the concurrent version is the `EStep`
transition system below).  A fresh handle is identified by the current
construction count. -/
def WhisperSTT.ensure_model (e : WhisperSTT) : Nat × WhisperSTT :=
  match e.model with
  | some m => (m, e)
  | none => (e.initCount,
      { e with model := some e.initCount, initCount := e.initCount + 1 })

/-- What `model.transcribe` returned: the `seg.text` values in emission
order, and the `info.language` / `info.language_probability` metadata
(`none` when absent). -/
structure InferenceOutcome where
  segments : List String
  language : Option String
  language_probability : Option ℚ

/-- Ghost record of one `model.transcribe(...)` invocation and its
arguments. -/
structure InferenceCall where
  audio_path : String
  language : Option String
  beam_size : Int
  vad_filter : Bool
deriving DecidableEq, Repr

/-- Errors `transcribe` can raise: the `ValueError` from the beam-size
check, or an arbitrary exception propagating out of `model.transcribe`. -/
inductive EngineError
  | invalidBeamSize
  | inferenceError (msg : String)
deriving DecidableEq, Repr

/-- The environment a `transcribe` call runs in: which paths exist on disk,
what `model.transcribe` does for given arguments (possibly raising), and
the wall-clock duration measured around the inference. -/
structure Env where
  fs : List String
  inference : String → Option String → Int → Bool → Except String InferenceOutcome
  elapsed : ℚ

/-- Output of a `transcribe` call: the returned result or raised error, the
engine afterwards, the ghost trace of inference invocations, and the ghost
number of `_ensure_model` invocations. -/
structure TranscribeOutput where
  result : Except EngineError TranscriptionResult
  engine : WhisperSTT
  calls : List InferenceCall
  ensureCalls : Nat

/-- Line 94 of `stt_engine.py`:
`lang = language.strip() if language and language.strip() else None`. -/
def normalizeLang (language : Option String) : Option String :=
  match language with
  | none => none
  | some l => if pyStrip l ≠ "" then some (pyStrip l) else none

/-- `WhisperSTT.transcribe`.  In source order: the existence check (empty or
non-existing path returns the zero result), the beam-size range check
(raises `ValueError`), `_ensure_model`, language normalization, the
inference call, and result packaging (segment texts concatenated with no
separator, then stripped). -/
def WhisperSTT.transcribe (e : WhisperSTT) (env : Env) (audio_path : String)
    (language : Option String) (beam_size : Int) (vad_filter : Bool) :
    TranscribeOutput :=
  if audio_path = "" ∨ audio_path ∉ env.fs then
    { result := .ok zeroResult, engine := e, calls := [], ensureCalls := 0 }
  else if beam_size < 1 ∨ 10 < beam_size then
    { result := .error .invalidBeamSize, engine := e, calls := [], ensureCalls := 0 }
  else
    let p := e.ensure_model
    let lang := normalizeLang language
    let call : InferenceCall :=
      { audio_path := audio_path, language := lang,
        beam_size := beam_size, vad_filter := vad_filter }
    match env.inference audio_path lang beam_size vad_filter with
    | .error msg =>
        { result := .error (.inferenceError msg), engine := p.2,
          calls := [call], ensureCalls := 1 }
    | .ok out =>
        { result := .ok
            { text := pyStrip (String.join out.segments),
              detected_language := out.language,
              language_probability := out.language_probability,
              seconds := env.elapsed },
          engine := p.2, calls := [call], ensureCalls := 1 }

/-- Contents of the temporary WAV container built by `transcribe_pcm16` with
the `wave` module: `setnchannels(1)`, `setsampwidth(2)`, `setframerate(sr)`,
`writeframes(pcm)`. -/
structure WavData where
  nchannels : Nat
  sampwidth : Nat
  framerate : Int
  frames : List Nat
deriving DecidableEq, Repr

/-- A temporary file created during a call: its path and WAV contents. -/
structure TempFile where
  path : String
  content : WavData
deriving DecidableEq, Repr

/-- Output of a `transcribe_pcm16` call: result or error, engine, final
file-system state, ghost inference trace, ghost `_ensure_model` count, and
the ghost list of temporary files created during the call. -/
structure Pcm16Output where
  result : Except EngineError TranscriptionResult
  engine : WhisperSTT
  fs : List String
  calls : List InferenceCall
  ensureCalls : Nat
  tempsCreated : List TempFile

/-- `WhisperSTT.transcribe_pcm16`.  Empty bytes return the zero result at
once.  Otherwise the PCM bytes (a `List Nat` of byte values) are wrapped
into a mono 16-bit WAV at `sample_rate`, written to a fresh temporary path
`tmpName` (`NamedTemporaryFile` guarantees freshness, here a parameter),
`transcribe` runs on that path, and the `finally` block removes the
temporary file on every exit path — whether `transcribe` returned or
raised, its outcome is passed through unchanged. -/
def WhisperSTT.transcribe_pcm16 (e : WhisperSTT) (env : Env) (tmpName : String)
    (pcm16le : List Nat) (sample_rate : Int) (language : Option String)
    (beam_size : Int) (vad_filter : Bool) : Pcm16Output :=
  if pcm16le = [] then
    { result := .ok zeroResult, engine := e, fs := env.fs,
      calls := [], ensureCalls := 0, tempsCreated := [] }
  else
    let wav : WavData :=
      { nchannels := 1, sampwidth := 2, framerate := sample_rate, frames := pcm16le }
    let fs' := tmpName :: env.fs
    let out := e.transcribe { env with fs := fs' } tmpName language beam_size vad_filter
    { result := out.result, engine := out.engine,
      fs := fs'.erase tmpName,
      calls := out.calls, ensureCalls := out.ensureCalls,
      tempsCreated := [{ path := tmpName, content := wav }] }

/-- `get_engine` of `api_server.py` over the module-level `ENGINES` dict
(modelled as a function from model names to optional engines): construct
and store a fresh `WhisperSTT(model)` on a miss, return the stored engine
on a hit, together with the dict afterwards. -/
def get_engine (engines : WhisperModelName → Option WhisperSTT)
    (model : WhisperModelName) :
    WhisperSTT × (WhisperModelName → Option WhisperSTT) :=
  match engines model with
  | some e => (e, engines)
  | none =>
      let e := WhisperSTT.init model none none
      (e, fun m => if m = model then some e else engines m)

/-- Spec-side restatement of language normalization, written from the
spec's words: a null, empty, or whitespace-only language is treated as
auto-detect (null); any other language is passed whitespace-stripped. -/
def specNormalizedLanguage (language : Option String) : Option String :=
  match language with
  | none => none
  | some l => if l.data.all pyIsSpace then none else some (pyStrip l)

/-!
Concurrent execution of `_ensure_model` by `N` threads on one fresh engine,
as a small-step transition system.  Each thread runs the method's
operations in order: the fast unguarded read of `self._model` (hit returns
it, miss proceeds to the lock), lock acquisition, the re-check of
`self._model` under the lock, the single `WhisperModel(...)` construction
and store when the re-check still sees `None`, lock release at the end of
the `with` block, and the final read `return self._model`.  `self._model`
is only ever written from `None` to a handle, so the fast path's check and
return collapse into one atomic read.  Handles are identified by the value
of the construction counter at creation time, so distinct initialization
events would produce distinct handles.
-/

/-- Program counter of one thread inside `_ensure_model`. -/
inductive EPC
  | fastRead
  | acquire
  | recheck
  | store
  | release
  | retRead
  | done
deriving DecidableEq, Repr

/-- Shared and per-thread state of `N` threads running `_ensure_model`:
the shared `self._model`, which thread (if any) holds `self._init_lock`,
the ghost count of `WhisperModel` constructions, each thread's program
counter, and each thread's returned handle once it finishes. -/
structure ESt (N : Nat) where
  model : Option Nat
  lockHolder : Option (Fin N)
  initCount : Nat
  pc : Fin N → EPC
  res : Fin N → Option Nat

/-- Initial state: a fresh engine (`self._model = None`), lock free, no
construction yet, every thread about to do the fast read. -/
def einit (N : Nat) : ESt N :=
  { model := none, lockHolder := none, initCount := 0,
    pc := fun _ => .fastRead, res := fun _ => none }

/-- One interleaved step: some thread executes its next operation of
`_ensure_model`. -/
inductive EStep {N : Nat} : ESt N → ESt N → Prop
  | fastReadHit (s : ESt N) (i : Fin N) (v : Nat) :
      s.pc i = .fastRead → s.model = some v →
      EStep s { s with pc := Function.update s.pc i .done,
                       res := Function.update s.res i (some v) }
  | fastReadMiss (s : ESt N) (i : Fin N) :
      s.pc i = .fastRead → s.model = none →
      EStep s { s with pc := Function.update s.pc i .acquire }
  | acquireLock (s : ESt N) (i : Fin N) :
      s.pc i = .acquire → s.lockHolder = none →
      EStep s { s with lockHolder := some i,
                       pc := Function.update s.pc i .recheck }
  | recheckNone (s : ESt N) (i : Fin N) :
      s.pc i = .recheck → s.model = none →
      EStep s { s with pc := Function.update s.pc i .store }
  | recheckSome (s : ESt N) (i : Fin N) (v : Nat) :
      s.pc i = .recheck → s.model = some v →
      EStep s { s with pc := Function.update s.pc i .release }
  | storeModel (s : ESt N) (i : Fin N) :
      s.pc i = .store →
      EStep s { s with model := some s.initCount,
                       initCount := s.initCount + 1,
                       pc := Function.update s.pc i .release }
  | releaseLock (s : ESt N) (i : Fin N) :
      s.pc i = .release →
      EStep s { s with lockHolder := none,
                       pc := Function.update s.pc i .retRead }
  | retReadStep (s : ESt N) (i : Fin N) :
      s.pc i = .retRead →
      EStep s { s with pc := Function.update s.pc i .done,
                       res := Function.update s.res i s.model }

/-- States reachable from the fresh-engine initial state by any
interleaving. -/
def EReach (N : Nat) (s : ESt N) : Prop :=
  Relation.ReflTransGen EStep (einit N) s

/-- Inductive invariant of the `_ensure_model` transition system:
the model is constructed at most once (handle `0`, counter `1`); a thread
between lock acquisition and release holds the lock (hence mutual
exclusion); a thread about to store saw `None` under the lock; a thread
past its re-check has a constructed model to read; a finished thread
returned the unique handle. -/
def EInv {N : Nat} (s : ESt N) : Prop :=
  ((s.model = none ∧ s.initCount = 0) ∨ (s.model = some 0 ∧ s.initCount = 1))
  ∧ (∀ i, (s.pc i = .recheck ∨ s.pc i = .store ∨ s.pc i = .release) →
      s.lockHolder = some i)
  ∧ (∀ i, s.pc i = .store → s.model = none)
  ∧ (∀ i, (s.pc i = .release ∨ s.pc i = .retRead ∨ s.pc i = .done) →
      ∃ v, s.model = some v)
  ∧ (∀ i, s.pc i = .done → s.res i = some 0)

/-! ### Helper lemmas -/

/-- Every element surviving `dropWhile p` satisfies `p` exactly when every
element of the list does. -/
theorem forall_mem_dropWhile_iff {α : Type} (p : α → Bool) (l : List α) :
    (∀ x ∈ l.dropWhile p, p x) ↔ (∀ x ∈ l, p x) := by
  induction l with
  | nil => simp
  | cons a l ih =>
      by_cases h : p a
      · simpa [List.dropWhile_cons, h] using ih
      · simp [List.dropWhile_cons, h]

/-- A built string is empty exactly when its character list is. -/
theorem string_mk_eq_empty_iff (l : List Char) : String.mk l = "" ↔ l = [] := by
  constructor
  · intro h
    simpa using congrArg String.data h
  · intro h
    rw [h]

/-- `pyStrip` returns the empty string exactly when the input is all
whitespace. -/
theorem pyStrip_eq_empty_iff (s : String) :
    pyStrip s = "" ↔ s.data.all pyIsSpace := by
  rw [pyStrip, string_mk_eq_empty_iff]
  simp only [List.reverse_eq_nil_iff, List.dropWhile_eq_nil_iff, List.mem_reverse,
    List.all_eq_true]
  exact forall_mem_dropWhile_iff pyIsSpace s.data

/-- The code's language normalization agrees with the spec's description of
it. -/
theorem normalizeLang_eq_spec (language : Option String) :
    normalizeLang language = specNormalizedLanguage language := by
  cases language with
  | none => rfl
  | some l =>
      simp only [normalizeLang, specNormalizedLanguage, ← pyStrip_eq_empty_iff]
      by_cases h : pyStrip l = "" <;> simp [h]

/-- Every inference invocation performed by `transcribe` is on the audio
path it was given. -/
theorem transcribe_calls_audio_path (e : WhisperSTT) (env : Env)
    (audio_path : String) (language : Option String) (beam_size : Int)
    (vad_filter : Bool) :
    ∀ c ∈ (e.transcribe env audio_path language beam_size vad_filter).calls,
      c.audio_path = audio_path := by
  unfold WhisperSTT.transcribe
  split
  · simp
  · split
    · simp
    · cases h : env.inference audio_path (normalizeLang language) beam_size vad_filter <;>
        simp [h]

/-! ### The `_ensure_model` invariant -/

/-- The invariant holds initially. -/
theorem einv_init (N : Nat) : EInv (einit N) := by
  refine ⟨Or.inl ⟨rfl, rfl⟩, ?_, ?_, ?_, ?_⟩ <;> intro i hi <;> simp [einit] at hi

/-- The invariant is preserved by every interleaved step. -/
theorem einv_step {N : Nat} {s t : ESt N} (hinv : EInv s) (hstep : EStep s t) :
    EInv t := by
  obtain ⟨h1, h2, h3, h4, h5⟩ := hinv
  cases hstep with
  | fastReadHit i v hpc hm =>
      have hv : v = 0 := by
        rcases h1 with ⟨hm0, _⟩ | ⟨hm0, _⟩
        · rw [hm0] at hm; cases hm
        · rw [hm0] at hm; exact (Option.some.inj hm).symm
      refine ⟨h1, ?_, ?_, ?_, ?_⟩ <;> intro j hj <;>
        rcases eq_or_ne j i with rfl | hji
      · simp [Function.update_same] at hj
      · simp only [Function.update_noteq hji] at hj; exact h2 j hj
      · simp [Function.update_same] at hj
      · simp only [Function.update_noteq hji] at hj; exact h3 j hj
      · exact ⟨v, hm⟩
      · simp only [Function.update_noteq hji] at hj; exact h4 j hj
      · simp only [Function.update_same, hv]
      · simp only [Function.update_noteq hji] at hj
        simp only [Function.update_noteq hji]
        exact h5 j hj
  | fastReadMiss i hpc hm =>
      refine ⟨h1, ?_, ?_, ?_, ?_⟩ <;> intro j hj <;>
        rcases eq_or_ne j i with rfl | hji
      · simp [Function.update_same] at hj
      · simp only [Function.update_noteq hji] at hj; exact h2 j hj
      · simp [Function.update_same] at hj
      · simp only [Function.update_noteq hji] at hj; exact h3 j hj
      · simp [Function.update_same] at hj
      · simp only [Function.update_noteq hji] at hj; exact h4 j hj
      · simp [Function.update_same] at hj
      · simp only [Function.update_noteq hji] at hj; exact h5 j hj
  | acquireLock i hpc hl =>
      refine ⟨h1, ?_, ?_, ?_, ?_⟩ <;> intro j hj <;>
        rcases eq_or_ne j i with rfl | hji
      · rfl
      · simp only [Function.update_noteq hji] at hj
        have hcontra := h2 j hj
        rw [hl] at hcontra
        cases hcontra
      · simp [Function.update_same] at hj
      · simp only [Function.update_noteq hji] at hj; exact h3 j hj
      · simp [Function.update_same] at hj
      · simp only [Function.update_noteq hji] at hj; exact h4 j hj
      · simp [Function.update_same] at hj
      · simp only [Function.update_noteq hji] at hj; exact h5 j hj
  | recheckNone i hpc hm =>
      refine ⟨h1, ?_, ?_, ?_, ?_⟩ <;> intro j hj <;>
        rcases eq_or_ne j i with rfl | hji
      · exact h2 j (Or.inl hpc)
      · simp only [Function.update_noteq hji] at hj; exact h2 j hj
      · exact hm
      · simp only [Function.update_noteq hji] at hj; exact h3 j hj
      · simp [Function.update_same] at hj
      · simp only [Function.update_noteq hji] at hj; exact h4 j hj
      · simp [Function.update_same] at hj
      · simp only [Function.update_noteq hji] at hj; exact h5 j hj
  | recheckSome i v hpc hm =>
      refine ⟨h1, ?_, ?_, ?_, ?_⟩ <;> intro j hj <;>
        rcases eq_or_ne j i with rfl | hji
      · exact h2 j (Or.inl hpc)
      · simp only [Function.update_noteq hji] at hj; exact h2 j hj
      · simp [Function.update_same] at hj
      · simp only [Function.update_noteq hji] at hj; exact h3 j hj
      · exact ⟨v, hm⟩
      · simp only [Function.update_noteq hji] at hj; exact h4 j hj
      · simp [Function.update_same] at hj
      · simp only [Function.update_noteq hji] at hj; exact h5 j hj
  | storeModel i hpc =>
      have hm : s.model = none := h3 i hpc
      have hc : s.initCount = 0 := by
        rcases h1 with ⟨_, hc0⟩ | ⟨hm0, _⟩
        · exact hc0
        · rw [hm0] at hm; cases hm
      refine ⟨Or.inr ⟨by simp only [hc], by simp only [hc]⟩, ?_, ?_, ?_, ?_⟩ <;>
        intro j hj <;> rcases eq_or_ne j i with rfl | hji
      · exact h2 j (Or.inr (Or.inl hpc))
      · simp only [Function.update_noteq hji] at hj; exact h2 j hj
      · simp [Function.update_same] at hj
      · simp only [Function.update_noteq hji] at hj
        have hcontra := (h2 j (Or.inr (Or.inl hj))).symm.trans (h2 i (Or.inr (Or.inl hpc)))
        exact absurd (Option.some.inj hcontra) hji
      · exact ⟨s.initCount, rfl⟩
      · exact ⟨s.initCount, rfl⟩
      · simp [Function.update_same] at hj
      · simp only [Function.update_noteq hji] at hj; exact h5 j hj
  | releaseLock i hpc =>
      refine ⟨h1, ?_, ?_, ?_, ?_⟩ <;> intro j hj <;>
        rcases eq_or_ne j i with rfl | hji
      · simp [Function.update_same] at hj
      · simp only [Function.update_noteq hji] at hj
        have hcontra := (h2 j hj).symm.trans (h2 i (Or.inr (Or.inr hpc)))
        exact absurd (Option.some.inj hcontra) hji
      · simp [Function.update_same] at hj
      · simp only [Function.update_noteq hji] at hj; exact h3 j hj
      · exact h4 j (Or.inl hpc)
      · simp only [Function.update_noteq hji] at hj; exact h4 j hj
      · simp [Function.update_same] at hj
      · simp only [Function.update_noteq hji] at hj; exact h5 j hj
  | retReadStep i hpc =>
      refine ⟨h1, ?_, ?_, ?_, ?_⟩ <;> intro j hj <;>
        rcases eq_or_ne j i with rfl | hji
      · simp [Function.update_same] at hj
      · simp only [Function.update_noteq hji] at hj; exact h2 j hj
      · simp [Function.update_same] at hj
      · simp only [Function.update_noteq hji] at hj; exact h3 j hj
      · exact h4 j (Or.inr (Or.inl hpc))
      · simp only [Function.update_noteq hji] at hj; exact h4 j hj
      · simp only [Function.update_same]
        obtain ⟨v, hv⟩ := h4 j (Or.inr (Or.inl hpc))
        rcases h1 with ⟨hm0, _⟩ | ⟨hm0, _⟩
        · rw [hm0] at hv; cases hv
        · exact hm0
      · simp only [Function.update_noteq hji] at hj
        simp only [Function.update_noteq hji]
        exact h5 j hj

/-- Every reachable state satisfies the invariant. -/
theorem einv_reach {N : Nat} {s : ESt N} (h : EReach N s) : EInv s := by
  have h' : Relation.ReflTransGen (EStep (N := N)) (einit N) s := h
  clear h
  induction h' with
  | refl => exact einv_init N
  | tail _ hstep ih => exact einv_step ih hstep

/-! ### A concrete interleaved run of `_ensure_model` for two threads

Thread 0 misses the fast read, takes the lock, re-checks, constructs the
model and stores it; thread 1 then hits on the fast read while thread 0
still holds the lock; thread 0 releases and returns. -/

def w0 : ESt 2 := einit 2

def w1 : ESt 2 := { w0 with pc := Function.update w0.pc 0 .acquire }

def w2 : ESt 2 :=
  { w1 with lockHolder := some 0, pc := Function.update w1.pc 0 .recheck }

def w3 : ESt 2 := { w2 with pc := Function.update w2.pc 0 .store }

def w4 : ESt 2 :=
  { w3 with model := some w3.initCount, initCount := w3.initCount + 1,
            pc := Function.update w3.pc 0 .release }

def w5 : ESt 2 :=
  { w4 with pc := Function.update w4.pc 1 .done,
            res := Function.update w4.res 1 (some 0) }

def w6 : ESt 2 :=
  { w5 with lockHolder := none, pc := Function.update w5.pc 0 .retRead }

def w7 : ESt 2 :=
  { w6 with pc := Function.update w6.pc 0 .done,
            res := Function.update w6.res 0 w6.model }

/-! ### Claim theorems -/

/-- C1: for every missing or empty audio path, `transcribe` returns the
zero result (`text = ""`, `seconds = 0`, no detected language, no language
probability) immediately: the engine is returned unchanged (so a fresh
engine stays Uninitialized), no inference call happens, and
`_ensure_model` is never invoked. -/
theorem transcribe_missing_path_zero (e : WhisperSTT) (env : Env)
    (audio_path : String) (language : Option String) (beam_size : Int)
    (vad_filter : Bool) (h : audio_path = "" ∨ audio_path ∉ env.fs) :
    e.transcribe env audio_path language beam_size vad_filter =
      { result := .ok zeroResult, engine := e, calls := [], ensureCalls := 0 } := by
  unfold WhisperSTT.transcribe
  rw [if_pos h]

/-- A fixed environment for concrete runs: one existing audio file and an
inference routine that always yields the segments `["hello", " world"]`
with detected language `"en"` at probability `1`. -/
def envA : Env :=
  { fs := ["audio.wav"],
    inference := fun _ _ _ _ =>
      .ok { segments := ["hello", " world"], language := some "en",
            language_probability := some 1 },
    elapsed := 0 }

/-- Witness for C1 at a concrete missing path. -/
theorem transcribe_missing_path_zero_witness :
    (WhisperSTT.init .tiny none none).transcribe envA "missing.wav" none 5 true =
      { result := .ok zeroResult, engine := WhisperSTT.init .tiny none none,
        calls := [], ensureCalls := 0 } :=
  transcribe_missing_path_zero _ _ _ _ _ _ (Or.inr (by decide))

/-- C10: the path-existence check runs before beam-size validation, so a
missing or empty path short-circuits to the zero result even when
`beam_size` is outside `[1, 10]` — no `ValueError` is raised. -/
theorem transcribe_path_check_precedes_beam_check (e : WhisperSTT) (env : Env)
    (audio_path : String) (language : Option String) (beam_size : Int)
    (vad_filter : Bool) (hpath : audio_path = "" ∨ audio_path ∉ env.fs)
    (_hbeam : beam_size < 1 ∨ 10 < beam_size) :
    e.transcribe env audio_path language beam_size vad_filter =
      { result := .ok zeroResult, engine := e, calls := [], ensureCalls := 0 } := by
  unfold WhisperSTT.transcribe
  rw [if_pos hpath]

/-- Witness for C10: empty path with the out-of-range beam size `0`. -/
theorem transcribe_path_check_precedes_beam_check_witness :
    (WhisperSTT.init .tiny none none).transcribe envA "" none 0 true =
      { result := .ok zeroResult, engine := WhisperSTT.init .tiny none none,
        calls := [], ensureCalls := 0 } :=
  transcribe_path_check_precedes_beam_check _ _ _ _ _ _ (Or.inl rfl)
    (Or.inl (by decide))

/-- Counterexample to C2 as stated: with the invalid (empty) path and the
out-of-range beam size `0`, `transcribe` does not fail with the
`InvalidParameter` error — it returns the zero result, so the failure is
not independent of path validity. -/
theorem transcribe_invalid_beam_not_path_independent :
    ((WhisperSTT.init .tiny none none).transcribe envA "" none 0 true).result
      = .ok zeroResult := by
  rfl

/-- C2 (amended): for every beam size outside `[1, 10]` and a valid
(non-empty, existing) path, `transcribe` fails with the `ValueError`
(`InvalidParameter`), before any initialization or inference work. -/
theorem transcribe_invalid_beam_valid_path_raises (e : WhisperSTT) (env : Env)
    (audio_path : String) (language : Option String) (beam_size : Int)
    (vad_filter : Bool) (hpath : ¬(audio_path = "" ∨ audio_path ∉ env.fs))
    (hbeam : beam_size < 1 ∨ 10 < beam_size) :
    e.transcribe env audio_path language beam_size vad_filter =
      { result := .error .invalidBeamSize, engine := e, calls := [],
        ensureCalls := 0 } := by
  unfold WhisperSTT.transcribe
  rw [if_neg hpath, if_pos hbeam]

/-- Witness for the amended C2: existing path, beam size `11`. -/
theorem transcribe_invalid_beam_valid_path_raises_witness :
    (WhisperSTT.init .tiny none none).transcribe envA "audio.wav" none 11 true =
      { result := .error .invalidBeamSize,
        engine := WhisperSTT.init .tiny none none, calls := [],
        ensureCalls := 0 } :=
  transcribe_invalid_beam_valid_path_raises _ _ _ _ _ _ (by decide)
    (Or.inr (by decide))

/-- C5: on a valid call whose inference emitted segments `out.segments`,
the produced text is the concatenation of the segment texts in emission
order, with no added separator, then stripped of leading and trailing
whitespace; the language metadata and measured duration are passed
through. -/
theorem transcribe_concatenates_and_trims (e : WhisperSTT) (env : Env)
    (audio_path : String) (language : Option String) (beam_size : Int)
    (vad_filter : Bool) (out : InferenceOutcome)
    (hpath : ¬(audio_path = "" ∨ audio_path ∉ env.fs))
    (hbeam : ¬(beam_size < 1 ∨ 10 < beam_size))
    (hinf : env.inference audio_path (normalizeLang language) beam_size
      vad_filter = .ok out) :
    (e.transcribe env audio_path language beam_size vad_filter).result =
      .ok { text := pyStrip (String.join out.segments),
            detected_language := out.language,
            language_probability := out.language_probability,
            seconds := env.elapsed } := by
  unfold WhisperSTT.transcribe
  rw [if_neg hpath, if_neg hbeam]
  simp only [hinf]

/-- Witness for C5: the segments `["hello", " world"]` produce the text
`"hello world"`. -/
theorem transcribe_concatenates_and_trims_witness :
    ((WhisperSTT.init .base none none).transcribe envA "audio.wav" (some "en")
        5 true).result =
      .ok { text := "hello world", detected_language := some "en",
            language_probability := some 1, seconds := 0 } := by
  have h := transcribe_concatenates_and_trims (WhisperSTT.init .base none none)
    envA "audio.wav" (some "en") 5 true
    { segments := ["hello", " world"], language := some "en",
      language_probability := some 1 }
    (by decide) (by decide) rfl
  rw [h]
  rfl

/-- C7: on a valid call, exactly one inference invocation happens and the
language it receives is the normalized one: null, empty, and
whitespace-only languages become null (auto-detect); any other language is
passed whitespace-stripped. -/
theorem transcribe_language_normalized (e : WhisperSTT) (env : Env)
    (audio_path : String) (language : Option String) (beam_size : Int)
    (vad_filter : Bool) (hpath : ¬(audio_path = "" ∨ audio_path ∉ env.fs))
    (hbeam : ¬(beam_size < 1 ∨ 10 < beam_size)) :
    (e.transcribe env audio_path language beam_size vad_filter).calls.map
        InferenceCall.language = [specNormalizedLanguage language] := by
  unfold WhisperSTT.transcribe
  rw [if_neg hpath, if_neg hbeam]
  simp only [normalizeLang_eq_spec]
  cases h : env.inference audio_path (specNormalizedLanguage language)
      beam_size vad_filter <;>
    simp [h]

/-- Witness for C7: the language `" en "` is passed stripped to `"en"`. -/
theorem transcribe_language_normalized_witness :
    ((WhisperSTT.init .small none none).transcribe envA "audio.wav"
        (some " en ") 5 true).calls.map InferenceCall.language
      = [some "en"] := by
  have h := transcribe_language_normalized (WhisperSTT.init .small none none)
    envA "audio.wav" (some " en ") 5 true (by decide) (by decide)
  rw [h]
  rfl

/-- C4: `transcribe_pcm16` on non-empty PCM bytes creates exactly one
temporary resource — a mono (1 channel) 16-bit (2 byte) WAV at the given
sample rate wrapping exactly the input bytes — passes its path to
`transcribe` (every inference invocation is on the temporary path, and the
outcome of `transcribe` is returned unchanged), and after the call the
temporary file no longer exists, on every exit path: success, the
beam-size `ValueError`, or an unexpected inference error. -/
theorem transcribe_pcm16_temp_lifecycle (e : WhisperSTT) (env : Env)
    (tmpName : String) (pcm : List Nat) (sample_rate : Int)
    (language : Option String) (beam_size : Int) (vad_filter : Bool)
    (hpcm : pcm ≠ []) (htmp : tmpName ∉ env.fs) :
    (e.transcribe_pcm16 env tmpName pcm sample_rate language beam_size
        vad_filter).tempsCreated =
      [{ path := tmpName,
         content := { nchannels := 1, sampwidth := 2,
                      framerate := sample_rate, frames := pcm } }]
    ∧ (e.transcribe_pcm16 env tmpName pcm sample_rate language beam_size
        vad_filter).fs = env.fs
    ∧ tmpName ∉ (e.transcribe_pcm16 env tmpName pcm sample_rate language
        beam_size vad_filter).fs
    ∧ (∀ c ∈ (e.transcribe_pcm16 env tmpName pcm sample_rate language
        beam_size vad_filter).calls, c.audio_path = tmpName)
    ∧ (e.transcribe_pcm16 env tmpName pcm sample_rate language beam_size
        vad_filter).result =
      (e.transcribe { env with fs := tmpName :: env.fs } tmpName language
        beam_size vad_filter).result := by
  unfold WhisperSTT.transcribe_pcm16
  rw [if_neg hpcm]
  refine ⟨rfl, ?_, ?_, ?_, rfl⟩
  · simp [List.erase_cons_head]
  · simp [List.erase_cons_head, htmp]
  · exact transcribe_calls_audio_path e _ tmpName language beam_size vad_filter

/-- Witness for C4 on concrete two-byte PCM input. -/
theorem transcribe_pcm16_temp_lifecycle_witness :
    ((WhisperSTT.init .tiny none none).transcribe_pcm16 envA "/tmp/t.wav"
        [0, 0] 16000 none 5 true).tempsCreated =
      [{ path := "/tmp/t.wav",
         content := { nchannels := 1, sampwidth := 2, framerate := 16000,
                      frames := [0, 0] } }]
    ∧ ((WhisperSTT.init .tiny none none).transcribe_pcm16 envA "/tmp/t.wav"
        [0, 0] 16000 none 5 true).fs = envA.fs
    ∧ "/tmp/t.wav" ∉ ((WhisperSTT.init .tiny none none).transcribe_pcm16 envA
        "/tmp/t.wav" [0, 0] 16000 none 5 true).fs
    ∧ (∀ c ∈ ((WhisperSTT.init .tiny none none).transcribe_pcm16 envA
        "/tmp/t.wav" [0, 0] 16000 none 5 true).calls,
        c.audio_path = "/tmp/t.wav")
    ∧ ((WhisperSTT.init .tiny none none).transcribe_pcm16 envA "/tmp/t.wav"
        [0, 0] 16000 none 5 true).result =
      ((WhisperSTT.init .tiny none none).transcribe
        { envA with fs := "/tmp/t.wav" :: envA.fs } "/tmp/t.wav" none 5
        true).result :=
  transcribe_pcm16_temp_lifecycle _ _ _ _ _ _ _ _ (by decide) (by decide)

/-- C8: `transcribe_pcm16` on empty bytes returns the zero result at once:
the engine is unchanged (no initialization), the file system is unchanged,
no temporary resource is created, and no inference happens. -/
theorem transcribe_pcm16_empty_zero (e : WhisperSTT) (env : Env)
    (tmpName : String) (sample_rate : Int) (language : Option String)
    (beam_size : Int) (vad_filter : Bool) :
    e.transcribe_pcm16 env tmpName [] sample_rate language beam_size
        vad_filter =
      { result := .ok zeroResult, engine := e, fs := env.fs, calls := [],
        ensureCalls := 0, tempsCreated := [] } := by
  unfold WhisperSTT.transcribe_pcm16
  rw [if_pos rfl]



/-- C9: the engine cache returns the stored engine on a hit; on a miss it
constructs a fresh Uninitialized engine (`_model = None`), stores it under
the identifier, and returns it; and a second `get` for the same identifier
returns the very engine the first `get` produced, leaving the cache
unchanged. -/
theorem get_engine_cache_contract (engines : WhisperModelName → Option WhisperSTT)
    (model : WhisperModelName) :
    (∀ e, engines model = some e → get_engine engines model = (e, engines))
    ∧ (engines model = none →
        (get_engine engines model).1 = WhisperSTT.init model none none
        ∧ (get_engine engines model).1.model = none
        ∧ (get_engine engines model).2 model = some (get_engine engines model).1)
    ∧ (get_engine (get_engine engines model).2 model).1 =
        (get_engine engines model).1
    ∧ (get_engine (get_engine engines model).2 model).2 =
        (get_engine engines model).2 := by
  cases h : engines model with
  | some e =>
      refine ⟨?_, ?_, ?_, ?_⟩
      · intro e' he'
        cases Option.some.inj he'
        simp [get_engine, h]
      · intro hn
        cases hn
      · simp [get_engine, h]
      · simp [get_engine, h]
  | none =>
      refine ⟨?_, ?_, ?_, ?_⟩
      · intro e' he'
        cases he'
      · intro _
        refine ⟨?_, ?_, ?_⟩ <;> simp [get_engine, h, WhisperSTT.init]
      · simp [get_engine, h]
      · simp [get_engine, h]

/-- Witness for C9 on an empty cache and the `tiny` identifier. -/
theorem get_engine_cache_contract_witness :
    (get_engine (fun _ => none) WhisperModelName.tiny).1 =
        WhisperSTT.init WhisperModelName.tiny none none
    ∧ (get_engine (fun _ => none) WhisperModelName.tiny).2
        WhisperModelName.tiny =
        some (get_engine (fun _ => none) WhisperModelName.tiny).1
    ∧ (get_engine (get_engine (fun _ => none) WhisperModelName.tiny).2
        WhisperModelName.tiny).1 =
        (get_engine (fun _ => none) WhisperModelName.tiny).1 := by
  have h := get_engine_cache_contract (fun _ => none) WhisperModelName.tiny
  exact ⟨(h.2.1 rfl).1, (h.2.1 rfl).2.2, h.2.2.1⟩

/-- Counterexample to C6 as stated: the fifth supported identifier is
`"large-v3"`, not `"large"`; validating the raw string `"large"` fails, and
the enumerated identifier set is not `{tiny, base, small, medium,
large}`. -/
theorem model_registry_no_plain_large :
    WhisperModelName.ofString "large" = .error "large"
    ∧ WhisperModelName.members.map WhisperModelName.value
        ≠ ["tiny", "base", "small", "medium", "large"] := by
  exact ⟨rfl, by decide⟩

/-- C6 (amended): the registry enumerates exactly the ordered identifiers
`tiny, base, small, medium, large-v3` (smallest to largest), and
validating any raw string outside this set fails with the invalid-model
`ValueError`. -/
theorem model_registry_members_amended :
    WhisperModelName.members.map WhisperModelName.value
        = ["tiny", "base", "small", "medium", "large-v3"]
    ∧ ∀ s, s ∉ (["tiny", "base", "small", "medium", "large-v3"] : List String) →
        WhisperModelName.ofString s = .error s := by
  refine ⟨rfl, ?_⟩
  intro s hs
  simp only [List.mem_cons, List.not_mem_nil, or_false, not_or] at hs
  obtain ⟨h1, h2, h3, h4, h5⟩ := hs
  have e1 : (WhisperModelName.value .tiny == s) = false := by
    simp [WhisperModelName.value, Ne.symm h1]
  have e2 : (WhisperModelName.value .base == s) = false := by
    simp [WhisperModelName.value, Ne.symm h2]
  have e3 : (WhisperModelName.value .small == s) = false := by
    simp [WhisperModelName.value, Ne.symm h3]
  have e4 : (WhisperModelName.value .medium == s) = false := by
    simp [WhisperModelName.value, Ne.symm h4]
  have e5 : (WhisperModelName.value .large_v3 == s) = false := by
    simp [WhisperModelName.value, Ne.symm h5]
  simp [WhisperModelName.ofString, WhisperModelName.members, List.find?,
    e1, e2, e3, e4, e5]

/-- Witness for the amended C6 at the unknown identifier `"bogus"`. -/
theorem model_registry_members_amended_witness :
    WhisperModelName.ofString "bogus" = .error "bogus" :=
  model_registry_members_amended.2 "bogus" (by decide)

/-- C3: in every interleaved run of `N ≥ 1` threads concurrently executing
`_ensure_model` on a fresh engine, once all threads have finished exactly
one `WhisperModel` construction has happened, the shared handle is the one
constructed, and every thread returned that same handle. -/
theorem ensure_model_single_init {N : Nat} (hN : 0 < N) (s : ESt N)
    (hreach : EReach N s) (hdone : ∀ i, s.pc i = .done) :
    s.initCount = 1 ∧ s.model = some 0 ∧ ∀ i, s.res i = some 0 := by
  obtain ⟨h1, _h2, _h3, h4, h5⟩ := einv_reach hreach
  obtain ⟨v, hv⟩ := h4 ⟨0, hN⟩ (Or.inr (Or.inr (hdone ⟨0, hN⟩)))
  rcases h1 with ⟨hm0, _⟩ | ⟨hm0, hc0⟩
  · rw [hm0] at hv
    cases hv
  · exact ⟨hc0, hm0, fun i => h5 i (hdone i)⟩

/-- Witness for C3: the two-thread interleaving `w0 → … → w7`, in which
thread 1's fast read hits while thread 0 still holds the lock, reaches an
all-done state with exactly one construction and both threads holding
handle `0`. -/
theorem ensure_model_single_init_witness :
    w7.initCount = 1 ∧ w7.model = some 0 ∧ ∀ i, w7.res i = some 0 := by
  have hr : EReach 2 w7 := by
    have s1 : EStep w0 w1 := EStep.fastReadMiss w0 0 (by decide) (by decide)
    have s2 : EStep w1 w2 := EStep.acquireLock w1 0 (by decide) (by decide)
    have s3 : EStep w2 w3 := EStep.recheckNone w2 0 (by decide) (by decide)
    have s4 : EStep w3 w4 := EStep.storeModel w3 0 (by decide)
    have s5 : EStep w4 w5 := EStep.fastReadHit w4 1 0 (by decide) (by decide)
    have s6 : EStep w5 w6 := EStep.releaseLock w5 0 (by decide)
    have s7 : EStep w6 w7 := EStep.retReadStep w6 0 (by decide)
    exact Relation.ReflTransGen.head s1 (Relation.ReflTransGen.head s2
      (Relation.ReflTransGen.head s3 (Relation.ReflTransGen.head s4
        (Relation.ReflTransGen.head s5 (Relation.ReflTransGen.head s6
          (Relation.ReflTransGen.head s7 Relation.ReflTransGen.refl))))))
  exact ensure_model_single_init (by decide) w7 hr (by decide)
